import Mathlib

/-!
Verification of the telemetry latency aggregation service (api/latency.py).

The development shallowly embeds the two components of the source file:

* `normalize_df` — the schema normalizer that renames columns of the
  telemetry table onto the canonical names `region`, `latency_ms`, `uptime`
  via a case-insensitive alias lookup (the Python dict comprehension
  `{c.lower(): c for c in df.columns}` followed by an if/elif priority
  chain);
* `latency_endpoint` — the POST handler: request-shape validation
  (`isinstance(regions, list)`, `isinstance(threshold, (int, float))`),
  the empty-table and schema precondition checks, and the per-region
  aggregation loop (case-insensitive region match, numeric coercion with
  silent drop of unparseable cells, mean, 95th percentile with linear
  interpolation, strict threshold breach count, region-wide uptime
  percent rescaling, rounding).

Floating point arithmetic is idealized as exact rational arithmetic (ℚ);
Python `round(x, n)` is modelled as round-half-to-even at `n` decimal
digits over ℚ.
-/

/-- Cell value of the telemetry table: a numeric cell, a string cell, or a
missing value (null / NaN after pandas loading). -/
inductive Value where
  | vNum (q : ℚ)
  | vStr (s : String)
  | vNull
deriving DecidableEq

/-- Numeric value of a digit list (most significant first). -/
def digitsNatVal (cs : List Char) : ℕ :=
  cs.foldl (fun a c => a * 10 + (c.toNat - 48)) 0

/-- All characters are ASCII digits. -/
def allDigits (cs : List Char) : Bool :=
  cs.all (fun c => c.isDigit)

/-- Parse an unsigned decimal literal `digits[.digits]` (either digit group
may be empty but not both), as `pd.to_numeric` accepts for a string cell. -/
def parseUnsigned (cs : List Char) : Option ℚ :=
  match cs.span (fun c => c != '.') with
  | (ip, []) =>
    if ip.isEmpty then Option.none
    else if allDigits ip then some ((digitsNatVal ip : ℚ)) else Option.none
  | (ip, _ :: fp) =>
    if fp.contains '.' then Option.none
    else if ip.isEmpty && fp.isEmpty then Option.none
    else if allDigits ip && allDigits fp then
      some ((digitsNatVal ip : ℚ) + (digitsNatVal fp : ℚ) / (10 : ℚ) ^ fp.length)
    else Option.none

/-- Parse a signed decimal string to a rational, `Option.none` on failure.
Models the string case of `pd.to_numeric(..., errors="coerce")`. -/
def parseNum (s : String) : Option ℚ :=
  match s.data with
  | '-' :: rest => (parseUnsigned rest).map (fun q => -q)
  | '+' :: rest => parseUnsigned rest
  | cs => parseUnsigned cs

/-- `pd.to_numeric(cell, errors="coerce")` followed by `dropna`: a numeric
cell keeps its value, a string cell is parsed, a missing cell is dropped. -/
def toNumeric : Value → Option ℚ
  | .vNum q => some q
  | .vStr s => parseNum s
  | .vNull => Option.none

/-- ASCII lower-casing of one character (Python `str.lower` restricted to
ASCII, which is all the source data uses). -/
def lowerChar (c : Char) : Char :=
  if 65 ≤ c.toNat ∧ c.toNat ≤ 90 then Char.ofNat (c.toNat + 32) else c

/-- ASCII lower-casing of a string. -/
def strLower (s : String) : String := String.mk (s.data.map lowerChar)

/-- `astype(str)` applied to one cell: strings stay, numbers print, a
missing value prints as pandas prints NaN. -/
def valueStr : Value → String
  | .vNum q => toString q
  | .vStr s => s
  | .vNull => "nan"

/-- Scalar Python value appearing in a parsed JSON request body. -/
inductive PyScalar where
  | pyNone
  | pyBool (b : Bool)
  | pyInt (n : ℤ)
  | pyFloat (q : ℚ)
  | pyStr (s : String)
deriving DecidableEq

/-- Python value of a request field: a scalar or a list of scalars. -/
inductive PyVal where
  | scalar (v : PyScalar)
  | list (xs : List PyScalar)
deriving DecidableEq

/-- `isinstance(x, (int, float))` for a scalar: Python booleans are a
subtype of `int`, so they pass this check. -/
def PyScalar.isNumeric : PyScalar → Bool
  | .pyBool _ => true
  | .pyInt _ => true
  | .pyFloat _ => true
  | _ => false

/-- `isinstance(x, (int, float))` on a request field. -/
def PyVal.isNumericInstance : PyVal → Bool
  | .scalar v => v.isNumeric
  | .list _ => false

/-- `isinstance(x, list)` on a request field. -/
def PyVal.isList : PyVal → Bool
  | .list _ => true
  | _ => false

/-- The elements of a request field known to be a list. -/
def PyVal.listElems : PyVal → List PyScalar
  | .list xs => xs
  | _ => []

/-- `float(x)` on a value that passed `isinstance(x, (int, float))`:
`float(True) = 1.0`, `float(False) = 0.0`. -/
def PyVal.toFloat : PyVal → ℚ
  | .scalar (.pyBool true) => 1
  | .scalar (.pyBool false) => 0
  | .scalar (.pyInt n) => (n : ℚ)
  | .scalar (.pyFloat q) => q
  | _ => 0

/-- `str(x)` on a scalar request value. -/
def PyScalar.strOf : PyScalar → String
  | .pyStr s => s
  | .pyBool true => "True"
  | .pyBool false => "False"
  | .pyInt n => toString n
  | .pyFloat q => toString q
  | .pyNone => "None"

/-- Per-region output record of the endpoint. -/
structure Metrics where
  avg_latency : Option ℚ
  p95_latency : Option ℚ
  avg_uptime : Option ℚ
  breaches : ℕ
deriving DecidableEq

/-- The telemetry table: named columns and rows of cells, row cells being
positionally aligned with `cols`. -/
structure DataFrame where
  cols : List String
  rows : List (List Value)
deriving DecidableEq

/-- Select the cell of `row` under the column called `name` (first matching
column label, a missing cell reads as null). -/
def DataFrame.cell (df : DataFrame) (row : List Value) (name : String) : Value :=
  match df.cols.findIdx? (fun c => c == name) with
  | some i => (row.get? i).getD Value.vNull
  | Option.none => Value.vNull

/-- `df.empty` in pandas: no rows or no columns. -/
def DataFrame.empty (df : DataFrame) : Bool :=
  df.rows.isEmpty || df.cols.isEmpty

/-- Lookup in the dict comprehension `{c.lower(): c for c in df.columns}`:
the last column whose lower-casing equals `key` (later dict writes win). -/
def colsLookup (cols : List String) (key : String) : Option String :=
  (cols.filter (fun c => strLower c == key)).getLast?

/-- The if/elif alias chain of `normalize_df`: the first alias that is
present (case-insensitively) among the columns resolves the source column
for a canonical name. -/
def resolveSource (cols : List String) : List String → Option String
  | [] => Option.none
  | a :: rest =>
    match colsLookup cols a with
    | some c => some c
    | Option.none => resolveSource cols rest

/-- The rename mapping built by `normalize_df`: resolved source column to
canonical name, for `region`, `latency_ms` (aliases `latency_ms`,
`latency`, `ping` in priority order) and `uptime` (aliases `uptime`,
`up`). -/
def buildRename (cols : List String) : List (String × String) :=
  (match resolveSource cols ["region"] with
   | some c => [(c, "region")]
   | Option.none => [])
  ++ (match resolveSource cols ["latency_ms", "latency", "ping"] with
      | some c => [(c, "latency_ms")]
      | Option.none => [])
  ++ (match resolveSource cols ["uptime", "up"] with
      | some c => [(c, "uptime")]
      | Option.none => [])

/-- `df.rename(columns=rename)` applied to one column label. -/
def renameFun (cols : List String) (c : String) : String :=
  match (buildRename cols).lookup c with
  | some target => target
  | Option.none => c

/-- `normalize_df`: rename common columns to the standard names `region`,
`latency_ms`, `uptime`; all other columns pass through unchanged. -/
def normalize_df (df : DataFrame) : DataFrame :=
  { cols := df.cols.map (renameFun df.cols), rows := df.rows }

/-- Arithmetic mean of a list of rationals (`Series.mean`). -/
def mean (l : List ℚ) : ℚ := l.sum / (l.length : ℚ)

/-- Round to the nearest integer, ties to even (Python `round` on a float,
idealized over ℚ). -/
def roundHalfEven (q : ℚ) : ℤ :=
  if q - ⌊q⌋ < 1 / 2 then ⌊q⌋
  else if 1 / 2 < q - ⌊q⌋ then ⌊q⌋ + 1
  else if ⌊q⌋ % 2 = 0 then ⌊q⌋ else ⌊q⌋ + 1

/-- Python `round(q, d)` idealized over ℚ. -/
def roundTo (d : ℕ) (q : ℚ) : ℚ :=
  (roundHalfEven (q * (10 : ℚ) ^ d) : ℚ) / (10 : ℚ) ^ d

/-- `np.percentile(l, 95)` with the default linear interpolation: for the
ascending sort of the samples, interpolate at rank `0.95 * (n - 1)`. -/
def percentile95 (l : List ℚ) : ℚ :=
  let s := List.insertionSort (fun a b => a ≤ b) l
  let rank : ℚ := (95 / 100) * ((s.length : ℚ) - 1)
  let i : ℕ := (⌊rank⌋).toNat
  match s.get? i, s.get? (i + 1) with
  | some lo, some hi => lo + (rank - (i : ℚ)) * (hi - lo)
  | some lo, Option.none => lo
  | Option.none, _ => 0

/-- The sub-selection
`df[df["region"].astype(str).str.lower() == str(region).lower()]`. -/
def subRows (df : DataFrame) (region : PyScalar) : List (List Value) :=
  df.rows.filter (fun row =>
    strLower (valueStr (df.cell row "region")) == strLower region.strOf)

/-- `pd.to_numeric(sub["latency_ms"], errors="coerce").dropna()`: the
numerically parseable latency samples of the region, in row order. -/
def latencySamples (df : DataFrame) (region : PyScalar) : List ℚ :=
  ((subRows df region).map (fun row => df.cell row "latency_ms")).filterMap toNumeric

/-- `pd.to_numeric(sub["uptime"], errors="coerce").dropna()`: the
numerically parseable uptime samples of the region, in row order. -/
def uptimeSamples (df : DataFrame) (region : PyScalar) : List ℚ :=
  ((subRows df region).map (fun row => df.cell row "uptime")).filterMap toNumeric

/-- The region-wide percent rescaling: `if not up.empty and (up > 1).any():
up = up / 100.0`. -/
def rescaledUptime (df : DataFrame) (region : PyScalar) : List ℚ :=
  if !(uptimeSamples df region).isEmpty
      && (uptimeSamples df region).any (fun u => decide (1 < u)) then
    (uptimeSamples df region).map (fun u => u / 100)
  else uptimeSamples df region

/-- The loop body of `latency_endpoint` for one requested region `region`
against the normalized table `df` and numeric threshold `t`. -/
def regionMetrics (df : DataFrame) (region : PyScalar) (t : ℚ) : Metrics :=
  if (subRows df region).isEmpty then
    { avg_latency := Option.none, p95_latency := Option.none,
      avg_uptime := Option.none, breaches := 0 }
  else
    let lat := latencySamples df region
    let avgLatency : Option ℚ := if lat.isEmpty then Option.none else some (mean lat)
    let p95 : Option ℚ := if lat.isEmpty then Option.none else some (percentile95 lat)
    let breaches : ℕ :=
      if lat.isEmpty then 0 else (lat.filter (fun x => decide (t < x))).length
    let avgUptime : Option ℚ :=
      if df.cols.contains "uptime" then
        if (rescaledUptime df region).isEmpty then Option.none
        else some (mean (rescaledUptime df region))
      else Option.none
    { avg_latency := avgLatency.map (roundTo 3),
      p95_latency := p95.map (roundTo 3),
      avg_uptime := avgUptime.map (roundTo 6),
      breaches := breaches }

/-- Call-level errors of the endpoint (the HTTPException cases after body
parsing). -/
inductive ApiError where
  | invalidRequestShape
  | dataUnavailable
  | schemaMismatch
deriving DecidableEq

/-- `out[region] = value` on a Python dict: an existing key keeps its
position and gets the new value, a new key is appended. -/
def dictInsert (out : List (PyScalar × Metrics)) (k : PyScalar) (v : Metrics) :
    List (PyScalar × Metrics) :=
  if out.any (fun p => decide (p.1 = k)) then
    out.map (fun p => if p.1 = k then (k, v) else p)
  else out ++ [(k, v)]

/-- The endpoint body after JSON parsing: request-shape validation, the
empty-table check, normalization, the schema check, then the per-region
loop filling the output dict. -/
def latency_endpoint (telemetry : DataFrame) (regions threshold : PyVal) :
    Except ApiError (List (PyScalar × Metrics)) :=
  if !(regions.isList && threshold.isNumericInstance) then
    Except.error ApiError.invalidRequestShape
  else if telemetry.empty then
    Except.error ApiError.dataUnavailable
  else
    let df := normalize_df telemetry
    if !(df.cols.contains "region" && df.cols.contains "latency_ms") then
      Except.error ApiError.schemaMismatch
    else
      Except.ok (regions.listElems.foldl
        (fun out r => dictInsert out r (regionMetrics df r threshold.toFloat)) [])

/-- First-occurrence deduplication of a list, skipping elements already in
`seen`. Describes which keys a Python dict ends up with. -/
def dedupSeen (seen : List PyScalar) : List PyScalar → List PyScalar
  | [] => []
  | r :: rs => if r ∈ seen then dedupSeen seen rs else r :: dedupSeen (r :: seen) rs

/-- The distinct elements of a list in first-occurrence order. -/
def dedupFirst (rs : List PyScalar) : List PyScalar := dedupSeen [] rs

/-- Table of the end-to-end specification example: three rows for region
nyc1 with latencies 100, 300, 200 under the alias column `latency`. -/
def dfNyc : DataFrame :=
  { cols := ["region", "latency"],
    rows := [[Value.vStr "nyc1", Value.vNum 100],
             [Value.vStr "nyc1", Value.vNum 300],
             [Value.vStr "nyc1", Value.vNum 200]] }

/-- Minimal one-row table with the canonical columns. -/
def dfOne : DataFrame :=
  { cols := ["region", "latency_ms"], rows := [[Value.vStr "a", Value.vNum 1]] }

/-- Table whose only uptime sample is 150, a percent above 100. -/
def dfU150 : DataFrame :=
  { cols := ["region", "latency_ms", "uptime"],
    rows := [[Value.vStr "a", Value.vNum 1, Value.vNum 150]] }

/-- Table whose only uptime sample is 95, a percent within [0,100]. -/
def dfU95 : DataFrame :=
  { cols := ["region", "latency_ms", "uptime"],
    rows := [[Value.vStr "a", Value.vNum 1, Value.vNum 95]] }

/-- Table whose only uptime sample is 200. -/
def dfU200 : DataFrame :=
  { cols := ["region", "latency_ms", "uptime"],
    rows := [[Value.vStr "a", Value.vNum 1, Value.vNum 200]] }

/-- Table with the canonical columns and zero rows. -/
def dfEmptyRows : DataFrame :=
  { cols := ["region", "latency_ms"], rows := [] }

/-! ## Helper lemmas -/

theorem list_sum_le_mul (l : List ℚ) (b : ℚ) (h : ∀ x ∈ l, x ≤ b) :
    l.sum ≤ b * (l.length : ℚ) := by
  induction l with
  | nil => simp
  | cons a t ih =>
    have ha := h a (List.mem_cons_self a t)
    have ht := ih (fun x hx => h x (List.mem_cons_of_mem a hx))
    simp only [List.sum_cons, List.length_cons]
    push_cast
    linarith

theorem mul_le_list_sum (l : List ℚ) (a : ℚ) (h : ∀ x ∈ l, a ≤ x) :
    a * (l.length : ℚ) ≤ l.sum := by
  induction l with
  | nil => simp
  | cons b t ih =>
    have hb := h b (List.mem_cons_self b t)
    have ht := ih (fun x hx => h x (List.mem_cons_of_mem b hx))
    simp only [List.sum_cons, List.length_cons]
    push_cast
    linarith

theorem mean_bounds (l : List ℚ) (a b : ℚ) (hl : l ≠ [])
    (h : ∀ x ∈ l, a ≤ x ∧ x ≤ b) : a ≤ mean l ∧ mean l ≤ b := by
  have hlen : 0 < (l.length : ℚ) := by
    have : 0 < l.length := List.length_pos.mpr hl
    exact_mod_cast this
  constructor
  · rw [mean, le_div_iff₀ hlen]
    exact mul_le_list_sum l a (fun x hx => (h x hx).1)
  · rw [mean, div_le_iff₀ hlen]
    exact list_sum_le_mul l b (fun x hx => (h x hx).2)

theorem roundHalfEven_mem (q : ℚ) :
    roundHalfEven q = ⌊q⌋ ∨ roundHalfEven q = ⌊q⌋ + 1 := by
  unfold roundHalfEven
  split
  · exact Or.inl rfl
  split
  · exact Or.inr rfl
  split
  · exact Or.inl rfl
  · exact Or.inr rfl

theorem le_roundHalfEven (q : ℚ) (n : ℤ) (h : (n : ℚ) ≤ q) :
    n ≤ roundHalfEven q := by
  have h1 : n ≤ ⌊q⌋ := Int.le_floor.mpr h
  rcases roundHalfEven_mem q with h2 | h2 <;> omega

theorem roundHalfEven_le (q : ℚ) (n : ℤ) (h : q ≤ (n : ℚ)) :
    roundHalfEven q ≤ n := by
  have hfl : ⌊q⌋ ≤ n := by
    have h0 := Int.floor_le_floor h
    rwa [Int.floor_intCast] at h0
  unfold roundHalfEven
  split
  · exact hfl
  next h1 =>
    have h2 : (⌊q⌋ : ℚ) + 1 / 2 ≤ q := by
      have h3 := not_lt.mp h1
      linarith
    have h3 : (⌊q⌋ : ℚ) < (n : ℚ) := by linarith
    have h4 : ⌊q⌋ < n := by exact_mod_cast h3
    split
    · omega
    split
    · exact hfl
    · omega

theorem roundTo_nonneg (d : ℕ) (q : ℚ) (h : 0 ≤ q) : 0 ≤ roundTo d q := by
  unfold roundTo
  apply div_nonneg
  · have h1 : ((0 : ℤ) : ℚ) ≤ q * (10 : ℚ) ^ d := by positivity
    have h2 := le_roundHalfEven (q * (10 : ℚ) ^ d) 0 h1
    exact_mod_cast h2
  · positivity

theorem roundTo_le_one (d : ℕ) (q : ℚ) (h : q ≤ 1) : roundTo d q ≤ 1 := by
  unfold roundTo
  rw [div_le_one (by positivity)]
  have h1 : q * (10 : ℚ) ^ d ≤ (((10 : ℤ) ^ d : ℤ) : ℚ) := by
    push_cast
    have hp : (0 : ℚ) ≤ (10 : ℚ) ^ d := by positivity
    nlinarith
  have h2 := roundHalfEven_le (q * (10 : ℚ) ^ d) ((10 : ℤ) ^ d) h1
  have h3 : ((roundHalfEven (q * (10 : ℚ) ^ d) : ℤ) : ℚ) ≤ (((10 : ℤ) ^ d : ℤ) : ℚ) := by
    exact_mod_cast h2
  calc ((roundHalfEven (q * (10 : ℚ) ^ d) : ℤ) : ℚ)
      ≤ (((10 : ℤ) ^ d : ℤ) : ℚ) := h3
    _ = (10 : ℚ) ^ d := by push_cast; ring

theorem latencySamples_of_subRows_nil (df : DataFrame) (r : PyScalar)
    (h : subRows df r = []) : latencySamples df r = [] := by
  unfold latencySamples
  rw [h]
  rfl

theorem uptimeSamples_of_subRows_nil (df : DataFrame) (r : PyScalar)
    (h : subRows df r = []) : uptimeSamples df r = [] := by
  unfold uptimeSamples
  rw [h]
  rfl

theorem ne_of_strLower_ne (c k : String) (h : strLower c ≠ strLower k) : c ≠ k :=
  fun he => h (he ▸ rfl)

theorem colsLookup_some (cols : List String) (k c : String)
    (h : colsLookup cols k = some c) : c ∈ cols ∧ strLower c = k := by
  unfold colsLookup at h
  have hx : c ∈ (cols.filter (fun x => strLower x == k)).getLast? := Option.mem_def.mpr h
  obtain ⟨hne, hc⟩ := List.mem_getLast?_eq_getLast hx
  have hmem : c ∈ cols.filter (fun x => strLower x == k) := by
    rw [hc]
    exact List.getLast_mem hne
  have h2 := List.mem_filter.mp hmem
  refine ⟨h2.1, ?_⟩
  simpa using h2.2

theorem resolveSource_some (cols : List String) :
    ∀ (as : List String) (c : String), resolveSource cols as = some c →
      c ∈ cols ∧ ∃ a ∈ as, strLower c = a := by
  intro as
  induction as with
  | nil => intro c h; simp [resolveSource] at h
  | cons a rest ih =>
    intro c h
    unfold resolveSource at h
    cases hl : colsLookup cols a with
    | some c2 =>
      rw [hl] at h
      injection h with h
      subst h
      have h2 := colsLookup_some cols a c2 hl
      exact ⟨h2.1, a, List.mem_cons_self _ _, h2.2⟩
    | none =>
      rw [hl] at h
      obtain ⟨h1, a2, h2, h3⟩ := ih c h
      exact ⟨h1, a2, List.mem_cons_of_mem _ h2, h3⟩

theorem buildRename_mem (cols : List String) (pr : String × String)
    (h : pr ∈ buildRename cols) :
    resolveSource cols ["region"] = some pr.1 ∧ pr.2 = "region"
    ∨ resolveSource cols ["latency_ms", "latency", "ping"] = some pr.1 ∧ pr.2 = "latency_ms"
    ∨ resolveSource cols ["uptime", "up"] = some pr.1 ∧ pr.2 = "uptime" := by
  unfold buildRename at h
  rcases List.mem_append.mp h with h12 | h3
  · rcases List.mem_append.mp h12 with h1 | h2
    · left
      cases hr : resolveSource cols ["region"] with
      | some k => rw [hr] at h1; simp at h1; rw [h1]; exact ⟨rfl, rfl⟩
      | none => rw [hr] at h1; simp at h1
    · right; left
      cases hr : resolveSource cols ["latency_ms", "latency", "ping"] with
      | some k => rw [hr] at h2; simp at h2; rw [h2]; exact ⟨rfl, rfl⟩
      | none => rw [hr] at h2; simp at h2
  · right; right
    cases hr : resolveSource cols ["uptime", "up"] with
    | some k => rw [hr] at h3; simp at h3; rw [h3]; exact ⟨rfl, rfl⟩
    | none => rw [hr] at h3; simp at h3

theorem renameFun_eq_self (cols : List String) (p : String)
    (h : ∀ pr ∈ buildRename cols, pr.1 ≠ p) : renameFun cols p = p := by
  unfold renameFun
  have hn : (buildRename cols).lookup p = Option.none := by
    rw [List.lookup_eq_none_iff]
    intro pr hpr
    simp only [bne_iff_ne]
    exact Ne.symm (h pr hpr)
  rw [hn]

theorem renameFun_of_latency (cols : List String) (c : String)
    (h : resolveSource cols ["latency_ms", "latency", "ping"] = some c) :
    renameFun cols c = "latency_ms" := by
  obtain ⟨hmem, a, ha, hla⟩ := resolveSource_some cols _ c h
  rw [← hla] at ha
  unfold renameFun buildRename
  rw [h]
  cases hr : resolveSource cols ["region"] with
  | some k =>
    obtain ⟨_, a1, ha1, hk1⟩ := resolveSource_some cols _ k hr
    simp only [List.mem_singleton] at ha1
    subst ha1
    have hck : (c == k) = false := by
      apply beq_eq_false_iff_ne.mpr
      intro he
      rw [he, hk1] at ha
      exact absurd ha (by decide)
    cases hu : resolveSource cols ["uptime", "up"] with
    | some k3 => simp [List.lookup_append, List.lookup_cons, hck]
    | none => simp [List.lookup_append, List.lookup_cons, hck]
  | none =>
    cases hu : resolveSource cols ["uptime", "up"] with
    | some k3 => simp [List.lookup_append, List.lookup_cons]
    | none => simp [List.lookup_append, List.lookup_cons]

theorem renameFun_of_uptime (cols : List String) (c : String)
    (h : resolveSource cols ["uptime", "up"] = some c) :
    renameFun cols c = "uptime" := by
  obtain ⟨hmem, a, ha, hla⟩ := resolveSource_some cols _ c h
  rw [← hla] at ha
  unfold renameFun buildRename
  rw [h]
  cases hr : resolveSource cols ["region"] with
  | some k =>
    obtain ⟨_, a1, ha1, hk1⟩ := resolveSource_some cols _ k hr
    simp only [List.mem_singleton] at ha1
    subst ha1
    have hck : (c == k) = false := by
      apply beq_eq_false_iff_ne.mpr
      intro he
      rw [he, hk1] at ha
      exact absurd ha (by decide)
    cases hl : resolveSource cols ["latency_ms", "latency", "ping"] with
    | some k2 =>
      obtain ⟨_, a2, ha2, hk2⟩ := resolveSource_some cols _ k2 hl
      rw [← hk2] at ha2
      have hck2 : (c == k2) = false := by
        apply beq_eq_false_iff_ne.mpr
        intro he
        rw [← he] at ha2
        have ha9 : strLower c = "uptime" ∨ strLower c = "up" := by simpa using ha
        rcases ha9 with hc | hc
        · rw [hc] at ha2; exact absurd ha2 (by decide)
        · rw [hc] at ha2; exact absurd ha2 (by decide)
      simp [List.lookup_append, List.lookup_cons, hck, hck2]
    | none => simp [List.lookup_append, List.lookup_cons, hck]
  | none =>
    cases hl : resolveSource cols ["latency_ms", "latency", "ping"] with
    | some k2 =>
      obtain ⟨_, a2, ha2, hk2⟩ := resolveSource_some cols _ k2 hl
      rw [← hk2] at ha2
      have hck2 : (c == k2) = false := by
        apply beq_eq_false_iff_ne.mpr
        intro he
        rw [← he] at ha2
        have ha9 : strLower c = "uptime" ∨ strLower c = "up" := by simpa using ha
        rcases ha9 with hc | hc
        · rw [hc] at ha2; exact absurd ha2 (by decide)
        · rw [hc] at ha2; exact absurd ha2 (by decide)
      simp [List.lookup_append, List.lookup_cons, hck2]
    | none => simp [List.lookup_append, List.lookup_cons]

theorem dedupSeen_cons (seen : List PyScalar) (r : PyScalar) (rs : List PyScalar) :
    dedupSeen seen (r :: rs)
      = if r ∈ seen then dedupSeen seen rs else r :: dedupSeen (r :: seen) rs := rfl

theorem dedupSeen_congr (l : List PyScalar) : ∀ s₁ s₂ : List PyScalar,
    (∀ a, a ∈ s₁ ↔ a ∈ s₂) → dedupSeen s₁ l = dedupSeen s₂ l := by
  induction l with
  | nil => intro _ _ _; rfl
  | cons r rs ih =>
    intro s₁ s₂ hm
    unfold dedupSeen
    by_cases hr : r ∈ s₁
    · rw [if_pos hr, if_pos ((hm r).mp hr)]
      exact ih s₁ s₂ hm
    · rw [if_neg hr, if_neg (fun hc => hr ((hm r).mpr hc))]
      rw [ih (r :: s₁) (r :: s₂) (fun a => by simp [hm a])]

theorem mem_dedupSeen (a : PyScalar) : ∀ (l seen : List PyScalar),
    a ∈ l → a ∉ seen → a ∈ dedupSeen seen l := by
  intro l
  induction l with
  | nil => intro seen h _; simp at h
  | cons r rs ih =>
    intro seen hl hs
    unfold dedupSeen
    by_cases hr : r ∈ seen
    · rw [if_pos hr]
      rcases List.mem_cons.mp hl with rfl | hm
      · exact absurd hr hs
      · exact ih seen hm hs
    · rw [if_neg hr]
      by_cases har : a = r
      · subst har; exact List.mem_cons_self _ _
      · rcases List.mem_cons.mp hl with rfl | hm
        · exact absurd rfl har
        · exact List.mem_cons_of_mem _ (ih (r :: seen) hm (by simp [har, hs]))

theorem foldl_dictInsert (f : PyScalar → Metrics) :
    ∀ (rs ks : List PyScalar),
      rs.foldl (fun out r => dictInsert out r (f r)) (ks.map (fun x => (x, f x)))
        = (ks ++ dedupSeen ks rs).map (fun x => (x, f x)) := by
  intro rs
  induction rs with
  | nil => intro ks; simp [dedupSeen]
  | cons r rs ih =>
    intro ks
    rw [List.foldl_cons]
    by_cases hr : r ∈ ks
    · have hc : (ks.map (fun x => (x, f x))).any (fun p => decide (p.1 = r)) = true := by
        rw [List.any_eq_true]
        exact ⟨(r, f r), List.mem_map_of_mem _ hr, by simp⟩
      have hstep : dictInsert (ks.map (fun x => (x, f x))) r (f r)
          = ks.map (fun x => (x, f x)) := by
        unfold dictInsert
        rw [if_pos hc]
        rw [List.map_map]
        apply List.map_congr_left
        intro x _
        by_cases hxr : x = r
        · subst hxr; simp
        · simp [hxr]
      rw [hstep, ih ks]
      have hd : dedupSeen ks (r :: rs) = dedupSeen ks rs := by
        rw [dedupSeen_cons, if_pos hr]
      rw [hd]
    · have hc : (ks.map (fun x => (x, f x))).any (fun p => decide (p.1 = r)) = false := by
        rw [List.any_eq_false]
        intro p hp
        obtain ⟨x, hx, rfl⟩ := List.mem_map.mp hp
        simp only [decide_eq_true_eq]
        exact fun h => hr (h ▸ hx)
      have hstep : dictInsert (ks.map (fun x => (x, f x))) r (f r)
          = (ks ++ [r]).map (fun x => (x, f x)) := by
        unfold dictInsert
        rw [if_neg (by rw [hc]; exact Bool.false_ne_true)]
        simp
      rw [hstep, ih (ks ++ [r])]
      have hd : dedupSeen ks (r :: rs) = r :: dedupSeen (r :: ks) rs := by
        rw [dedupSeen_cons, if_neg hr]
      have hc2 : dedupSeen (ks ++ [r]) rs = dedupSeen (r :: ks) rs := by
        apply dedupSeen_congr
        intro a
        simp [or_comm]
      rw [hd, hc2]
      simp

theorem outputFor_eq (f : PyScalar → Metrics) (rs : List PyScalar) :
    rs.foldl (fun out r => dictInsert out r (f r)) []
      = (dedupFirst rs).map (fun x => (x, f x)) := by
  have h := foldl_dictInsert f rs []
  simpa [dedupFirst] using h

theorem latency_endpoint_ok (telemetry : DataFrame) (regions threshold : PyVal)
    (out : List (PyScalar × Metrics))
    (h : latency_endpoint telemetry regions threshold = Except.ok out) :
    out = (dedupFirst regions.listElems).map
      (fun r => (r, regionMetrics (normalize_df telemetry) r threshold.toFloat)) := by
  simp only [latency_endpoint] at h
  split at h
  · exact absurd h (by simp)
  split at h
  · exact absurd h (by simp)
  split at h
  · exact absurd h (by simp)
  · rw [Except.ok.injEq] at h
    rw [← h]
    exact outputFor_eq _ _

/-! ## Claims -/

/-- C3: for every region and every numeric threshold, `breaches` equals the
count of that region's numerically parseable latency samples strictly
greater than the threshold (samples equal to the threshold never count),
and the latency sample list feeding the mean, the percentile and the
breach count is exactly the numeric coercion of the region's `latency_ms`
cells with unparseable or absent cells dropped (not counted as zero). -/
theorem c3_breaches_strict_count (df : DataFrame) (r : PyScalar) (t : ℚ) :
    (regionMetrics df r t).breaches
      = ((latencySamples df r).filter (fun x => decide (t < x))).length
    ∧ latencySamples df r
      = ((subRows df r).map (fun row => df.cell row "latency_ms")).filterMap toNumeric := by
  refine ⟨?_, rfl⟩
  unfold regionMetrics
  by_cases hs : (subRows df r).isEmpty
  · rw [if_pos hs]
    rw [latencySamples_of_subRows_nil df r (List.isEmpty_iff.mp hs)]
    rfl
  · rw [if_neg hs]
    dsimp only
    by_cases hl : (latencySamples df r).isEmpty
    · rw [if_pos hl, List.isEmpty_iff.mp hl]
      rfl
    · rw [if_neg hl]

/-- C5: a requested region with zero matching rows (case-insensitive exact
match) yields exactly the all-null record with zero breaches; a region
whose rows have no numerically parseable latency sample yields null
`avg_latency` and `p95_latency` and zero `breaches`, never zero-valued
numbers. -/
theorem c5_missing_data_nulls (df : DataFrame) (r : PyScalar) (t : ℚ) :
    (subRows df r = [] →
      regionMetrics df r t
        = { avg_latency := Option.none, p95_latency := Option.none,
            avg_uptime := Option.none, breaches := 0 })
    ∧ (latencySamples df r = [] →
      (regionMetrics df r t).avg_latency = Option.none
      ∧ (regionMetrics df r t).p95_latency = Option.none
      ∧ (regionMetrics df r t).breaches = 0) := by
  constructor
  · intro hs
    unfold regionMetrics
    rw [if_pos (by rw [hs]; rfl)]
  · intro hl
    unfold regionMetrics
    by_cases hs : (subRows df r).isEmpty
    · rw [if_pos hs]
      exact ⟨rfl, rfl, rfl⟩
    · rw [if_neg hs]
      dsimp only
      rw [hl]
      simp

/-- Witness for C5 at a concrete table: requesting the region zzz, which
matches no row of the one-row table, yields the all-null record. -/
theorem c5_witness :
    regionMetrics dfOne (PyScalar.pyStr "zzz") 5
      = { avg_latency := Option.none, p95_latency := Option.none,
          avg_uptime := Option.none, breaches := 0 } :=
  (c5_missing_data_nulls dfOne (PyScalar.pyStr "zzz") 5).1 (by decide)

/-- C4: uptime rescaling is all-or-nothing per region: if any numerically
valid uptime sample of the region exceeds 1, every valid sample is divided
by 100 before averaging; if every valid sample is at most 1 the set is
never rescaled. The decision is taken once per region over the whole
sample set. -/
theorem c4_uptime_rescale_all_or_nothing (df : DataFrame) (r : PyScalar) (t : ℚ)
    (hcol : df.cols.contains "uptime" = true)
    (hsub : (subRows df r).isEmpty = false) :
    ((uptimeSamples df r).any (fun u => decide (1 < u)) = true →
      (regionMetrics df r t).avg_uptime
        = some (roundTo 6 (mean ((uptimeSamples df r).map (fun u => u / 100)))))
    ∧ ((∀ u ∈ uptimeSamples df r, u ≤ 1) →
      (regionMetrics df r t).avg_uptime
        = if (uptimeSamples df r).isEmpty then Option.none
          else some (roundTo 6 (mean (uptimeSamples df r)))) := by
  constructor
  · intro hany
    have hne : (uptimeSamples df r).isEmpty = false := by
      cases hu : uptimeSamples df r with
      | nil => rw [hu] at hany; simp at hany
      | cons a l => rfl
    have hres : rescaledUptime df r = (uptimeSamples df r).map (fun u => u / 100) := by
      unfold rescaledUptime
      rw [if_pos (by rw [hne, hany]; rfl)]
    have hrne : (rescaledUptime df r).isEmpty = false := by
      rw [hres]
      cases hu : uptimeSamples df r with
      | nil => rw [hu] at hne; simp at hne
      | cons a l => rfl
    unfold regionMetrics
    rw [if_neg (by rw [hsub]; exact Bool.false_ne_true)]
    dsimp only
    rw [if_pos hcol, if_neg (by rw [hrne]; exact Bool.false_ne_true), hres]
    rfl
  · intro hle
    have hanyf : (uptimeSamples df r).any (fun u => decide (1 < u)) = false := by
      rw [List.any_eq_false]
      intro u hu
      simpa using not_lt.mpr (hle u hu)
    have hres : rescaledUptime df r = uptimeSamples df r := by
      unfold rescaledUptime
      rw [if_neg (by rw [hanyf]; simp)]
    unfold regionMetrics
    rw [if_neg (by rw [hsub]; exact Bool.false_ne_true)]
    dsimp only
    rw [if_pos hcol, hres]
    by_cases hemp : (uptimeSamples df r).isEmpty
    · rw [if_pos hemp, if_pos hemp]
      rfl
    · rw [if_neg hemp, if_neg hemp]
      rfl

/-- Witness for C4 at a concrete table: the single uptime sample 200
exceeds 1, so it is divided by 100 before averaging. -/
theorem c4_witness :
    (regionMetrics dfU200 (PyScalar.pyStr "a") 0).avg_uptime
      = some (roundTo 6 (mean ((uptimeSamples dfU200 (PyScalar.pyStr "a")).map
          (fun u => u / 100)))) :=
  (c4_uptime_rescale_all_or_nothing dfU200 (PyScalar.pyStr "a") 0
    (by decide) (by decide)).1 (by decide)

/-- C2 counterexample: a region whose single parseable uptime sample is 150
yields a non-null `avg_uptime` of 3/2, which is outside [0,1] — the
region-wide divide-by-100 decision does not clamp values above 100. -/
theorem c2_counterexample :
    (regionMetrics dfU150 (PyScalar.pyStr "a") 0).avg_uptime = some ((3 : ℚ) / 2)
    ∧ ¬ (((3 : ℚ) / 2) ≤ 1) := by
  constructor
  · have h1 : uptimeSamples dfU150 (PyScalar.pyStr "a") = [150] := by decide
    have h2 : (subRows dfU150 (PyScalar.pyStr "a")).isEmpty = false := by decide
    have h3 : dfU150.cols.contains "uptime" = true := by decide
    norm_num [regionMetrics, rescaledUptime, h1, h2, h3, mean, roundTo, roundHalfEven]
    intro hmem
    exact absurd (by decide : "uptime" ∈ dfU150.cols) hmem
  · norm_num

/-- C2 amended: for every region whose computed `avg_uptime` is non-null,
if every numerically parseable uptime sample of the region lies in
[0,100], then the value lies in [0,1]. (Samples above 100, or negative
samples, can push the average outside [0,1].) -/
theorem c2_amended_unit_interval (df : DataFrame) (r : PyScalar) (t : ℚ) (v : ℚ)
    (hb : ∀ u ∈ uptimeSamples df r, 0 ≤ u ∧ u ≤ 100)
    (hv : (regionMetrics df r t).avg_uptime = some v) :
    0 ≤ v ∧ v ≤ 1 := by
  unfold regionMetrics at hv
  by_cases hs : (subRows df r).isEmpty
  · rw [if_pos hs] at hv
    exact absurd hv (by simp)
  rw [if_neg hs] at hv
  dsimp only at hv
  by_cases hcol : df.cols.contains "uptime" = true
  case neg =>
    rw [if_neg hcol] at hv
    exact absurd hv (by simp)
  rw [if_pos hcol] at hv
  by_cases hre : (rescaledUptime df r).isEmpty = true
  · rw [if_pos hre] at hv
    exact absurd hv (by simp)
  rw [if_neg hre] at hv
  have hv2 : roundTo 6 (mean (rescaledUptime df r)) = v := by
    simpa using hv
  have hall : ∀ x ∈ rescaledUptime df r, 0 ≤ x ∧ x ≤ 1 := by
    intro x hx
    unfold rescaledUptime at hx
    by_cases hcond : (!(uptimeSamples df r).isEmpty
        && (uptimeSamples df r).any (fun u => decide (1 < u))) = true
    · rw [if_pos hcond] at hx
      obtain ⟨u, hu, rfl⟩ := List.mem_map.mp hx
      obtain ⟨h0, h100⟩ := hb u hu
      constructor
      · positivity
      · rw [div_le_one (by norm_num)]
        linarith
    · rw [if_neg hcond] at hx
      obtain ⟨h0, _⟩ := hb x hx
      refine ⟨h0, ?_⟩
      have hne : (uptimeSamples df r).isEmpty = false := by
        cases hl : uptimeSamples df r with
        | nil => rw [hl] at hx; simp at hx
        | cons a l => rfl
      have hanyf : (uptimeSamples df r).any (fun u => decide (1 < u)) = false := by
        cases hany : (uptimeSamples df r).any (fun u => decide (1 < u)) with
        | true => exact absurd (by rw [hne, hany]; rfl) hcond
        | false => rfl
      have hnlt := List.any_eq_false.mp hanyf x hx
      simpa using hnlt
  have hne2 : rescaledUptime df r ≠ [] := by
    intro hnil
    rw [hnil] at hre
    exact hre rfl
  obtain ⟨hm0, hm1⟩ := mean_bounds (rescaledUptime df r) 0 1 hne2 hall
  rw [← hv2]
  exact ⟨roundTo_nonneg 6 _ hm0, roundTo_le_one 6 _ hm1⟩

/-- Witness for the amended C2 at a concrete table: the single uptime
sample 95 lies in [0,100]; the computed average 19/20 lies in [0,1]. -/
theorem c2_amended_witness : (0 : ℚ) ≤ 19 / 20 ∧ (19 : ℚ) / 20 ≤ 1 := by
  have h1 : uptimeSamples dfU95 (PyScalar.pyStr "a") = [95] := by decide
  have h2 : (subRows dfU95 (PyScalar.pyStr "a")).isEmpty = false := by decide
  have h3 : dfU95.cols.contains "uptime" = true := by decide
  have hv : (regionMetrics dfU95 (PyScalar.pyStr "a") 0).avg_uptime
      = some ((19 : ℚ) / 20) := by
    norm_num [regionMetrics, rescaledUptime, h1, h2, h3, mean, roundTo, roundHalfEven]
    intro hmem
    exact absurd (by decide : "uptime" ∈ dfU95.cols) hmem
  exact c2_amended_unit_interval dfU95 (PyScalar.pyStr "a") 0 ((19 : ℚ) / 20)
    (by decide) hv

theorem strLower_mem_aliases (cols : List String) (pr : String × String)
    (h : pr ∈ buildRename cols) :
    strLower pr.1 ∈ ["region", "latency_ms", "latency", "ping", "uptime", "up"] := by
  rcases buildRename_mem cols pr h with ⟨h1, _⟩ | ⟨h1, _⟩ | ⟨h1, _⟩
  · obtain ⟨_, a, ha, hla⟩ := resolveSource_some cols _ _ h1
    rw [hla]
    simp only [List.mem_singleton] at ha
    subst ha
    decide
  · obtain ⟨_, a, ha, hla⟩ := resolveSource_some cols _ _ h1
    rw [hla]
    have ha9 : a = "latency_ms" ∨ a = "latency" ∨ a = "ping" := by simpa using ha
    rcases ha9 with rfl | rfl | rfl <;> decide
  · obtain ⟨_, a, ha, hla⟩ := resolveSource_some cols _ _ h1
    rw [hla]
    have ha9 : a = "uptime" ∨ a = "up" := by simpa using ha
    rcases ha9 with rfl | rfl <;> decide

/-- C6: the Schema Normalizer resolves each canonical column by a
case-insensitive alias lookup in a fixed priority order: `latency_ms` from
a column named `latency_ms`, else `latency`, else `ping` (first match
only), and `uptime` from `uptime`, else `up`; the resolved source column
is renamed to the canonical name while the other alias columns (such as a
`ping` column losing to `latency`) and all columns matching no alias pass
through unchanged. -/
theorem c6_alias_resolution (df : DataFrame) :
    (∀ c, colsLookup df.cols "latency_ms" = some c →
      resolveSource df.cols ["latency_ms", "latency", "ping"] = some c)
    ∧ (colsLookup df.cols "latency_ms" = Option.none →
      ∀ c, colsLookup df.cols "latency" = some c →
        resolveSource df.cols ["latency_ms", "latency", "ping"] = some c)
    ∧ (colsLookup df.cols "latency_ms" = Option.none →
      colsLookup df.cols "latency" = Option.none →
      resolveSource df.cols ["latency_ms", "latency", "ping"]
        = colsLookup df.cols "ping")
    ∧ (∀ c, colsLookup df.cols "uptime" = some c →
      resolveSource df.cols ["uptime", "up"] = some c)
    ∧ (colsLookup df.cols "uptime" = Option.none →
      resolveSource df.cols ["uptime", "up"] = colsLookup df.cols "up")
    ∧ (∀ c, resolveSource df.cols ["latency_ms", "latency", "ping"] = some c →
      renameFun df.cols c = "latency_ms"
      ∧ ∀ p ∈ df.cols, p ≠ c →
          (strLower p = "latency" ∨ strLower p = "ping") →
          renameFun df.cols p = p)
    ∧ (∀ c, resolveSource df.cols ["uptime", "up"] = some c →
      renameFun df.cols c = "uptime")
    ∧ (∀ c ∈ df.cols,
      strLower c ∉ ["region", "latency_ms", "latency", "ping", "uptime", "up"] →
      renameFun df.cols c = c)
    ∧ (normalize_df df).cols = df.cols.map (renameFun df.cols) := by
  refine ⟨?_, ?_, ?_, ?_, ?_, ?_, ?_, ?_, rfl⟩
  · intro c h
    simp [resolveSource, h]
  · intro h0 c h
    simp [resolveSource, h0, h]
  · intro h0 h1
    cases hp : colsLookup df.cols "ping" <;> simp [resolveSource, h0, h1, hp]
  · intro c h
    simp [resolveSource, h]
  · intro h0
    cases hp : colsLookup df.cols "up" <;> simp [resolveSource, h0, hp]
  · intro c hc
    refine ⟨renameFun_of_latency df.cols c hc, ?_⟩
    intro p hp hpc hp2
    apply renameFun_eq_self
    intro pr hpr
    rcases buildRename_mem df.cols pr hpr with ⟨h1, _⟩ | ⟨h1, _⟩ | ⟨h1, _⟩
    · obtain ⟨_, a, ha, hla⟩ := resolveSource_some df.cols _ _ h1
      simp only [List.mem_singleton] at ha
      subst ha
      intro he
      rw [he] at hla
      rcases hp2 with hq | hq <;> rw [hq] at hla <;> exact absurd hla (by decide)
    · have hpc1 : pr.1 = c := by
        rw [h1] at hc
        exact Option.some.inj hc
      rw [hpc1]
      exact Ne.symm hpc
    · obtain ⟨_, a, ha, hla⟩ := resolveSource_some df.cols _ _ h1
      have ha9 : a = "uptime" ∨ a = "up" := by simpa using ha
      intro he
      rw [he] at hla
      rcases ha9 with rfl | rfl <;> rcases hp2 with hq | hq <;> rw [hq] at hla <;>
        exact absurd hla (by decide)
  · intro c hc
    exact renameFun_of_uptime df.cols c hc
  · intro c _ hna
    apply renameFun_eq_self
    intro pr hpr he
    apply hna
    rw [← he]
    exact strLower_mem_aliases df.cols pr hpr

/-- Witness for C6 at a concrete column set: with both `Latency` and `ping`
present and no `latency_ms`, the `Latency` column is renamed to
`latency_ms`, the `ping` column keeps its name, and the alias-free column
`notes` passes through unchanged. -/
theorem c6_witness :
    renameFun ["Region", "Latency", "ping", "up", "notes"] "Latency" = "latency_ms"
    ∧ renameFun ["Region", "Latency", "ping", "up", "notes"] "ping" = "ping"
    ∧ renameFun ["Region", "Latency", "ping", "up", "notes"] "notes" = "notes" := by
  have h := c6_alias_resolution
    { cols := ["Region", "Latency", "ping", "up", "notes"], rows := [] }
  obtain ⟨_, h2, _, _, _, h6, _, h8, _⟩ := h
  have hres := h2 (by decide) "Latency" (by decide)
  have h6x := h6 "Latency" hres
  refine ⟨h6x.1, ?_, ?_⟩
  · exact h6x.2 "ping" (by decide) (by decide) (Or.inr (by decide))
  · exact h8 "notes" (by decide) (by decide)

/-- C7: `avg_latency` is the arithmetic mean rounded to 3 decimal digits
and `p95_latency` is the 95th percentile by linear interpolation between
closest ranks (rank 0.95*(n-1) over the ascending sort of the samples)
rounded to 3 decimal digits; on the specification's end-to-end example
(rows nyc1/100, nyc1/300, nyc1/200, threshold 150) the endpoint returns
avg_latency 200.0, p95_latency 290.0 and breaches 2. -/
theorem c7_percentile_mean_example :
    (∀ (df : DataFrame) (r : PyScalar) (t : ℚ),
      (latencySamples df r).isEmpty = false →
      (regionMetrics df r t).avg_latency = some (roundTo 3 (mean (latencySamples df r)))
      ∧ (regionMetrics df r t).p95_latency
        = some (roundTo 3 (percentile95 (latencySamples df r))))
    ∧ latency_endpoint dfNyc (PyVal.list [PyScalar.pyStr "nyc1"])
        (PyVal.scalar (PyScalar.pyInt 150))
      = Except.ok [(PyScalar.pyStr "nyc1",
          { avg_latency := some 200, p95_latency := some 290,
            avg_uptime := Option.none, breaches := 2 })] := by
  constructor
  · intro df r t hl
    have hs : (subRows df r).isEmpty = false := by
      cases hsub : (subRows df r).isEmpty
      · rfl
      · rw [latencySamples_of_subRows_nil df r (List.isEmpty_iff.mp hsub)] at hl
        simp at hl
    unfold regionMetrics
    rw [if_neg (by rw [hs]; exact Bool.false_ne_true)]
    dsimp only
    rw [if_neg (by rw [hl]; exact Bool.false_ne_true),
      if_neg (by rw [hl]; exact Bool.false_ne_true)]
    exact ⟨rfl, rfl⟩
  · have hm : regionMetrics (normalize_df dfNyc) (PyScalar.pyStr "nyc1") 150 =
        { avg_latency := some 200, p95_latency := some 290,
          avg_uptime := Option.none, breaches := 2 } := by
      have hsub : subRows (normalize_df dfNyc) (PyScalar.pyStr "nyc1") = dfNyc.rows := by
        decide
      have hlat : latencySamples (normalize_df dfNyc) (PyScalar.pyStr "nyc1")
          = [100, 300, 200] := by decide
      have hcols : (normalize_df dfNyc).cols.contains "uptime" = false := by decide
      simp only [regionMetrics, hsub, hlat, hcols]
      norm_num [mean, percentile95, roundTo, roundHalfEven, List.insertionSort,
        List.orderedInsert, List.get?, List.sum_cons, List.sum_nil, List.filter, dfNyc]
    have hshape : ((PyVal.list [PyScalar.pyStr "nyc1"]).isList
        && (PyVal.scalar (PyScalar.pyInt 150)).isNumericInstance) = true := by decide
    have hempty : dfNyc.empty = false := by decide
    have hcols2 : ((normalize_df dfNyc).cols.contains "region"
        && (normalize_df dfNyc).cols.contains "latency_ms") = true := by decide
    have htf : (PyVal.scalar (PyScalar.pyInt 150)).toFloat = 150 := by
      norm_num [PyVal.toFloat]
    simp only [latency_endpoint, hshape, hempty, hcols2, Bool.not_true, Bool.not_false,
      if_false, if_true, PyVal.listElems, List.foldl, htf, hm, dictInsert]
    simp [dictInsert]

/-- Witness for C7's general clause at the example table: the rounded mean
formula gives the region's `avg_latency`. -/
theorem c7_witness :
    (regionMetrics (normalize_df dfNyc) (PyScalar.pyStr "nyc1") 150).avg_latency
      = some (roundTo 3 (mean (latencySamples (normalize_df dfNyc)
          (PyScalar.pyStr "nyc1")))) :=
  (c7_percentile_mean_example.1 (normalize_df dfNyc) (PyScalar.pyStr "nyc1") 150
    (by decide)).1

/-- C1 counterexample: the output is a Python dict, so requesting the same
region string twice produces a single entry, not one entry per element of
`regions`: for the two-element request [a, a] the endpoint returns a
one-entry mapping. -/
theorem c1_counterexample :
    latency_endpoint dfOne (PyVal.list [PyScalar.pyStr "a", PyScalar.pyStr "a"])
        (PyVal.scalar (PyScalar.pyInt 0))
      = Except.ok [(PyScalar.pyStr "a",
          { avg_latency := some 1, p95_latency := some 1,
            avg_uptime := Option.none, breaches := 1 })]
    ∧ [PyScalar.pyStr "a", PyScalar.pyStr "a"].length = 2 := by
  refine ⟨?_, rfl⟩
  have hm : regionMetrics (normalize_df dfOne) (PyScalar.pyStr "a") 0
      = { avg_latency := some 1, p95_latency := some 1,
          avg_uptime := Option.none, breaches := 1 } := by
    have hsub : subRows (normalize_df dfOne) (PyScalar.pyStr "a") = dfOne.rows := by decide
    have hlat : latencySamples (normalize_df dfOne) (PyScalar.pyStr "a") = [1] := by decide
    have hcols : (normalize_df dfOne).cols.contains "uptime" = false := by decide
    simp only [regionMetrics, hsub, hlat, hcols]
    norm_num [mean, percentile95, roundTo, roundHalfEven, List.insertionSort,
      List.orderedInsert, List.get?, List.sum_cons, List.sum_nil, List.filter, dfOne]
  have hshape : ((PyVal.list [PyScalar.pyStr "a", PyScalar.pyStr "a"]).isList
      && (PyVal.scalar (PyScalar.pyInt 0)).isNumericInstance) = true := by decide
  have hempty : dfOne.empty = false := by decide
  have hcols2 : ((normalize_df dfOne).cols.contains "region"
      && (normalize_df dfOne).cols.contains "latency_ms") = true := by decide
  have htf : (PyVal.scalar (PyScalar.pyInt 0)).toFloat = 0 := by
    norm_num [PyVal.toFloat]
  simp only [latency_endpoint, hshape, hempty, hcols2, Bool.not_true, Bool.not_false,
    if_false, if_true, PyVal.listElems, List.foldl, htf, hm, dictInsert]
  simp [dictInsert]

/-- C1 amended: the output mapping has one entry per distinct element of
`regions` (keyed by the caller's original casing, in first-occurrence
order); every element is processed independently, but a duplicate region
string overwrites the same dict key with an identical value instead of
appearing as a second entry. -/
theorem c1_amended_output_mapping (tbl : DataFrame) (rs : List PyScalar)
    (threshold : PyVal) (out : List (PyScalar × Metrics))
    (h : latency_endpoint tbl (PyVal.list rs) threshold = Except.ok out) :
    out = (dedupFirst rs).map
      (fun r => (r, regionMetrics (normalize_df tbl) r threshold.toFloat)) :=
  latency_endpoint_ok tbl (PyVal.list rs) threshold out h

/-- Witness for the amended C1 at a concrete request: for the region list
[A, a] against the one-row table the output is one entry per distinct
requested casing, in request order. -/
theorem c1_amended_witness :
    [(PyScalar.pyStr "A",
      { avg_latency := some 1, p95_latency := some 1,
        avg_uptime := Option.none, breaches := (1 : ℕ) }),
     (PyScalar.pyStr "a",
      { avg_latency := some 1, p95_latency := some 1,
        avg_uptime := Option.none, breaches := (1 : ℕ) })]
      = (dedupFirst [PyScalar.pyStr "A", PyScalar.pyStr "a"]).map
          (fun r => (r, regionMetrics (normalize_df dfOne) r
            (PyVal.scalar (PyScalar.pyInt 0)).toFloat)) := by
  apply c1_amended_output_mapping dfOne [PyScalar.pyStr "A", PyScalar.pyStr "a"]
    (PyVal.scalar (PyScalar.pyInt 0))
  have hmA : regionMetrics (normalize_df dfOne) (PyScalar.pyStr "A") 0
      = { avg_latency := some 1, p95_latency := some 1,
          avg_uptime := Option.none, breaches := 1 } := by
    have hsub : subRows (normalize_df dfOne) (PyScalar.pyStr "A") = dfOne.rows := by decide
    have hlat : latencySamples (normalize_df dfOne) (PyScalar.pyStr "A") = [1] := by decide
    have hcols : (normalize_df dfOne).cols.contains "uptime" = false := by decide
    simp only [regionMetrics, hsub, hlat, hcols]
    norm_num [mean, percentile95, roundTo, roundHalfEven, List.insertionSort,
      List.orderedInsert, List.get?, List.sum_cons, List.sum_nil, List.filter, dfOne]
  have hma : regionMetrics (normalize_df dfOne) (PyScalar.pyStr "a") 0
      = { avg_latency := some 1, p95_latency := some 1,
          avg_uptime := Option.none, breaches := 1 } := by
    have hsub : subRows (normalize_df dfOne) (PyScalar.pyStr "a") = dfOne.rows := by decide
    have hlat : latencySamples (normalize_df dfOne) (PyScalar.pyStr "a") = [1] := by decide
    have hcols : (normalize_df dfOne).cols.contains "uptime" = false := by decide
    simp only [regionMetrics, hsub, hlat, hcols]
    norm_num [mean, percentile95, roundTo, roundHalfEven, List.insertionSort,
      List.orderedInsert, List.get?, List.sum_cons, List.sum_nil, List.filter, dfOne]
  have hshape : ((PyVal.list [PyScalar.pyStr "A", PyScalar.pyStr "a"]).isList
      && (PyVal.scalar (PyScalar.pyInt 0)).isNumericInstance) = true := by decide
  have hempty : dfOne.empty = false := by decide
  have hcols2 : ((normalize_df dfOne).cols.contains "region"
      && (normalize_df dfOne).cols.contains "latency_ms") = true := by decide
  have htf : (PyVal.scalar (PyScalar.pyInt 0)).toFloat = 0 := by
    norm_num [PyVal.toFloat]
  simp only [latency_endpoint, hshape, hempty, hcols2, Bool.not_true, Bool.not_false,
    if_false, if_true, PyVal.listElems, List.foldl, htf, hmA, hma, dictInsert]
  simp [dictInsert]

/-- C8 counterexample: with an empty telemetry table a malformed request
(string threshold) still fails with InvalidRequestShape, because the
request-shape validation runs before the empty-table check — so an empty
table does not fail with DataUnavailable regardless of request content. -/
theorem c8_counterexample :
    latency_endpoint dfEmptyRows (PyVal.list [PyScalar.pyStr "a"])
        (PyVal.scalar (PyScalar.pyStr "180"))
      = Except.error ApiError.invalidRequestShape
    ∧ ApiError.invalidRequestShape ≠ ApiError.dataUnavailable := by
  exact ⟨rfl, by decide⟩

/-- C8 amended: for every well-shaped request (regions a list, threshold
numeric), a table with zero rows fails the whole call with
DataUnavailable before any per-region work; and a call that returns
successfully returns a complete mapping containing an entry for every
requested region. -/
theorem c8_amended_table_errors (tbl : DataFrame) (regions threshold : PyVal)
    (hshape : (regions.isList && threshold.isNumericInstance) = true) :
    (tbl.rows = [] →
      latency_endpoint tbl regions threshold = Except.error ApiError.dataUnavailable)
    ∧ (∀ rs out, regions = PyVal.list rs →
        latency_endpoint tbl regions threshold = Except.ok out →
        ∀ r ∈ rs, ∃ m, (r, m) ∈ out) := by
  constructor
  · intro hrows
    unfold latency_endpoint
    rw [if_neg (by rw [hshape]; simp)]
    rw [if_pos (by unfold DataFrame.empty; rw [hrows]; rfl)]
  · intro rs out hreg hok r hr
    subst hreg
    have hout := latency_endpoint_ok tbl (PyVal.list rs) threshold out hok
    simp only [PyVal.listElems] at hout
    rw [hout]
    refine ⟨regionMetrics (normalize_df tbl) r threshold.toFloat, ?_⟩
    have hd : r ∈ dedupFirst rs := mem_dedupSeen r rs [] hr (by simp)
    exact List.mem_map_of_mem _ hd

/-- Witness for the amended C8: a well-shaped request against the
zero-row table fails with DataUnavailable. -/
theorem c8_amended_witness :
    latency_endpoint dfEmptyRows (PyVal.list [PyScalar.pyStr "a"])
        (PyVal.scalar (PyScalar.pyInt 5))
      = Except.error ApiError.dataUnavailable :=
  (c8_amended_table_errors dfEmptyRows (PyVal.list [PyScalar.pyStr "a"])
    (PyVal.scalar (PyScalar.pyInt 5)) (by decide)).1 rfl

/-- C9: the call fails with InvalidRequestShape whenever `regions` is not a
list or `threshold_ms` is not numeric under Python's
`isinstance(x, (int, float))` check; in particular the string "180" as
threshold always fails with InvalidRequestShape instead of being coerced
to a number. -/
theorem c9_invalid_shape (tbl : DataFrame) (regions threshold : PyVal)
    (h : regions.isList = false ∨ threshold.isNumericInstance = false) :
    latency_endpoint tbl regions threshold = Except.error ApiError.invalidRequestShape
    ∧ latency_endpoint tbl regions (PyVal.scalar (PyScalar.pyStr "180"))
      = Except.error ApiError.invalidRequestShape := by
  constructor
  · unfold latency_endpoint
    rcases h with h | h
    · rw [if_pos (by rw [h]; rfl)]
    · rw [if_pos (by rw [h]; simp)]
  · unfold latency_endpoint
    rw [if_pos (by simp [PyVal.isNumericInstance, PyScalar.isNumeric])]

/-- Witness for C9: the string threshold "180" is rejected with
InvalidRequestShape on a well-formed region list. -/
theorem c9_witness :
    latency_endpoint dfOne (PyVal.list [PyScalar.pyStr "a"])
        (PyVal.scalar (PyScalar.pyStr "180"))
      = Except.error ApiError.invalidRequestShape :=
  (c9_invalid_shape dfOne (PyVal.list [PyScalar.pyStr "a"])
    (PyVal.scalar (PyScalar.pyStr "180")) (Or.inr rfl)).1

/-- C10: a JSON boolean threshold passes the isinstance numeric check
(bool is a subtype of int in Python); the call then behaves exactly as
with the numeric threshold 1.0 (for true) or 0.0 (for false), and a
well-shaped request with a boolean threshold never fails with
InvalidRequestShape. -/
theorem c10_boolean_threshold (tbl : DataFrame) (regions : PyVal) :
    PyVal.isNumericInstance (PyVal.scalar (PyScalar.pyBool true)) = true
    ∧ PyVal.isNumericInstance (PyVal.scalar (PyScalar.pyBool false)) = true
    ∧ latency_endpoint tbl regions (PyVal.scalar (PyScalar.pyBool true))
        = latency_endpoint tbl regions (PyVal.scalar (PyScalar.pyFloat 1))
    ∧ latency_endpoint tbl regions (PyVal.scalar (PyScalar.pyBool false))
        = latency_endpoint tbl regions (PyVal.scalar (PyScalar.pyFloat 0))
    ∧ (regions.isList = true →
        latency_endpoint tbl regions (PyVal.scalar (PyScalar.pyBool true))
          ≠ Except.error ApiError.invalidRequestShape) := by
  refine ⟨rfl, rfl, rfl, rfl, ?_⟩
  intro hl
  unfold latency_endpoint
  rw [if_neg (by rw [hl]; simp [PyVal.isNumericInstance, PyScalar.isNumeric])]
  by_cases he : tbl.empty = true
  · rw [if_pos he]
    intro hc
    simp at hc
  · rw [if_neg he]
    dsimp only
    by_cases hc3 : (!((normalize_df tbl).cols.contains "region"
        && (normalize_df tbl).cols.contains "latency_ms")) = true
    · rw [if_pos hc3]
      intro hc
      simp at hc
    · rw [if_neg hc3]
      intro hc
      exact Except.noConfusion hc

/-- Witness for C10: with a boolean threshold and a list of regions, the
call is not rejected as InvalidRequestShape. -/
theorem c10_witness :
    latency_endpoint dfOne (PyVal.list []) (PyVal.scalar (PyScalar.pyBool true))
      ≠ Except.error ApiError.invalidRequestShape :=
  (c10_boolean_threshold dfOne (PyVal.list [])).2.2.2.2 rfl
